import Mathlib

/-!
Shallow embedding of the explainer plugins of the autoprognosis repository:
`plugin_risk_effect_size.py` (population-shift effect-size explainer) and
`plugin_symbolic_pursuit.py` (symbolic pursuit explainer wrapper).

Numeric data handled by the Python code is modelled over `ℚ` wherever the
code only branches and routes values, and over `ℝ` where the code takes a
square root (Cohen's d).
-/

/-- Arithmetic mean of a list of rationals, as computed by `np.mean`. -/
def mean (l : List ℚ) : ℚ := l.sum / l.length

/-- Sample variance with `ddof=1`, as computed by `np.var(·, ddof=1)`:
sum of squared deviations from the mean divided by `n - 1`. -/
def varS (l : List ℚ) : ℚ :=
  (l.map (fun x => (x - mean l) ^ 2)).sum / ((l.length : ℚ) - 1)

/-- The pooled standard deviation computed inside `_cohend`
(`plugin_risk_effect_size.py`, line 90):
`sqrt(((n1 - 1) * s1 + (n2 - 1) * s2) / (n1 + n2 - 2))`. -/
noncomputable def pooledStd (d1 d2 : List ℚ) : ℝ :=
  Real.sqrt ((((d1.length : ℝ) - 1) * (varS d1 : ℝ) +
      ((d2.length : ℝ) - 1) * (varS d2 : ℝ)) /
    ((d1.length : ℝ) + (d2.length : ℝ) - 2))

/-- Cohen's d as computed by `RiskEffectSizePlugin._cohend`
(`plugin_risk_effect_size.py`, lines 85-95): `np.abs((u1 - u2) / s)` with
`u1, u2` the group means and `s` the pooled standard deviation. -/
noncomputable def cohend (d1 d2 : List ℚ) : ℝ :=
  |((mean d1 : ℝ) - (mean d2 : ℝ)) / pooledStd d1 d2|

/-- The bucketing function `risk_to_cluster`
(`plugin_risk_effect_size.py`, lines 102-109), modelled as the three
sequential masked assignments the pandas code performs on a copy of the
risk column: each mask is evaluated against the original risk value. -/
def risk_to_cluster (r : ℚ) : ℚ :=
  let output := r
  let output := if r < 1/5 then 0 else output
  let output := if 1/5 ≤ r ∧ r < 1/2 then 1 else output
  let output := if 1/2 ≤ r then 2 else output
  output

/-- C3: the bucketing used by the population-shift explainer sends a risk
score `r` to tier 0 when `r < 0.2`, to tier 1 when `0.2 ≤ r < 0.5`, to
tier 2 when `r ≥ 0.5`, and never to tier 3. -/
theorem risk_to_cluster_tiers (r : ℚ) :
    risk_to_cluster r = (if r < 1/5 then 0 else if r < 1/2 then 1 else 2) ∧
      risk_to_cluster r ≠ 3 := by
  have key : risk_to_cluster r =
      (if r < 1/5 then 0 else if r < 1/2 then 1 else 2) := by
    simp only [risk_to_cluster]
    rcases le_or_lt (1/2 : ℚ) r with h2 | h2
    · rw [if_pos h2, if_neg (by linarith : ¬ r < 1/5),
        if_neg (by linarith : ¬ r < 1/2)]
    · rcases le_or_lt (1/5 : ℚ) r with h1 | h1
      · rw [if_neg (not_le.mpr h2), if_pos ⟨h1, h2⟩,
          if_neg (not_lt.mpr h1), if_pos h2]
      · rw [if_neg (not_le.mpr h2),
          if_neg (fun h => absurd h.1 (not_le.mpr h1)), if_pos h1, if_pos h1]
  refine ⟨key, ?_⟩
  rw [key]
  split_ifs <;> norm_num

/-- One row of the table built by `_get_population_shifts`
(`plugin_risk_effect_size.py`, lines 115-137): the tier number the row was
emitted for (the code labels the row `f"Risk lvl {bucket}"`) and the list
of cell values, one per feature column of `X`. -/
structure ShiftRow where
  bucket : ℕ
  cells : List ℝ

/-- The row label `f"Risk lvl {bucket}"` appended at line 135 of
`plugin_risk_effect_size.py`. -/
def rowLabel (b : ℕ) : String := "Risk lvl " ++ toString b

/-- `X[buckets == bucket]` (line 118): the samples whose predicted risk
falls in tier `b`. -/
def tierGroup (X : List (List ℚ)) (risks : List ℚ) (b : ℕ) :
    List (List ℚ) :=
  ((X.zip (risks.map risk_to_cluster)).filter
    (fun p => decide (p.2 = (b : ℚ)))).map Prod.fst

/-- `X[buckets > bucket]` (line 119): the samples whose predicted risk
falls in a strictly higher tier than `b`. -/
def higherGroup (X : List (List ℚ)) (risks : List ℚ) (b : ℕ) :
    List (List ℚ) :=
  ((X.zip (risks.map risk_to_cluster)).filter
    (fun p => decide ((b : ℚ) < p.2))).map Prod.fst

/-- Column `j` of a feature table: the `j`-th entry of every row. -/
def column (g : List (List ℚ)) (j : ℕ) : List ℚ :=
  g.map (fun row => row.getD j 0)

/-- One cell of the emitted row (`plugin_risk_effect_size.py`,
lines 124-132): the `heatmaps` row starts at 0 and records the Cohen's d of
feature column `j` between the two groups exactly when it is not below the
configured `effect_size` threshold. -/
noncomputable def shiftCell (e : ℚ) (curr other : List (List ℚ))
    (j : ℕ) : ℝ :=
  if cohend (column curr j) (column other j) < (e : ℝ) then 0
  else cohend (column curr j) (column other j)

/-- `_get_population_shifts` (`plugin_risk_effect_size.py`, lines 97-140):
for each bucket `0 ≤ b < 4`, skip the bucket when either compared group has
fewer than 2 samples, otherwise emit the row of thresholded Cohen's d
values, one per feature column (`nCols = len(X.columns)`). -/
noncomputable def get_population_shifts (e : ℚ) (nCols : ℕ)
    (X : List (List ℚ)) (risks : List ℚ) : List ShiftRow :=
  (List.range 4).filterMap (fun b =>
    if (tierGroup X risks b).length < 2 ∨ (higherGroup X risks b).length < 2
    then none
    else some ⟨b, (List.range nCols).map
      (shiftCell e (tierGroup X risks b) (higherGroup X risks b))⟩)

lemma mem_shifts_iff (e : ℚ) (n : ℕ) (X : List (List ℚ)) (risks : List ℚ)
    (r : ShiftRow) :
    r ∈ get_population_shifts e n X risks ↔
      ∃ b, b < 4 ∧ 2 ≤ (tierGroup X risks b).length ∧
        2 ≤ (higherGroup X risks b).length ∧
        r = ⟨b, (List.range n).map
          (shiftCell e (tierGroup X risks b) (higherGroup X risks b))⟩ := by
  unfold get_population_shifts
  rw [List.mem_filterMap]
  constructor
  · rintro ⟨b, hb, hsome⟩
    rw [List.mem_range] at hb
    rw [Option.ite_none_left_eq_some, Option.some_inj] at hsome
    obtain ⟨hcond, hr⟩ := hsome
    push_neg at hcond
    exact ⟨b, hb, hcond.1, hcond.2, hr.symm⟩
  · rintro ⟨b, hb, h1, h2, hr⟩
    refine ⟨b, List.mem_range.mpr hb, ?_⟩
    rw [Option.ite_none_left_eq_some, Option.some_inj]
    exact ⟨by push_neg; exact ⟨h1, h2⟩, hr.symm⟩

lemma cohend_nonneg (d1 d2 : List ℚ) : 0 ≤ cohend d1 d2 := abs_nonneg _

/-- C1: every cell of the table returned by `explain` equals the computed
Cohen's d for that (tier, feature) pair when it meets or exceeds the
`effect_size` threshold and 0 otherwise, and is therefore non-negative. -/
theorem shift_cells_thresholded (e : ℚ) (n : ℕ) (X : List (List ℚ))
    (risks : List ℚ) (r : ShiftRow) (j : ℕ)
    (hr : r ∈ get_population_shifts e n X risks) (hj : j < n) :
    r.cells.getD j 0 =
      (if cohend (column (tierGroup X risks r.bucket) j)
          (column (higherGroup X risks r.bucket) j) < (e : ℝ) then 0
        else cohend (column (tierGroup X risks r.bucket) j)
          (column (higherGroup X risks r.bucket) j)) ∧
      0 ≤ r.cells.getD j 0 := by
  rw [mem_shifts_iff] at hr
  obtain ⟨b, hb, h1, h2, rfl⟩ := hr
  have hget : ((List.range n).map
      (shiftCell e (tierGroup X risks b) (higherGroup X risks b))).getD j 0 =
      shiftCell e (tierGroup X risks b) (higherGroup X risks b) j := by
    rw [List.getD_eq_getElem?_getD, List.getElem?_map, List.getElem?_range hj]
    rfl
  refine ⟨?_, ?_⟩
  · show ((List.range n).map _).getD j 0 = _
    rw [hget]
    rfl
  · show 0 ≤ ((List.range n).map _).getD j 0
    rw [hget]
    unfold shiftCell
    split_ifs with h
    · exact le_refl 0
    · exact cohend_nonneg _ _

lemma risk_to_cluster_le_two (r : ℚ) : risk_to_cluster r ≤ 2 := by
  simp only [risk_to_cluster]
  split_ifs with h1 h2 h3
  · norm_num
  · norm_num
  · norm_num
  · push_neg at h1
    linarith

lemma higherGroup_bucket_two (X : List (List ℚ)) (risks : List ℚ) :
    higherGroup X risks 2 = [] := by
  have hall : ∀ p ∈ X.zip (risks.map risk_to_cluster),
      ¬ (decide (((2 : ℕ) : ℚ) < p.2) = true) := by
    intro p hp
    obtain ⟨q, _, hq⟩ := List.mem_map.mp (List.of_mem_zip hp).2
    rw [decide_eq_true_eq, ← hq]
    push_cast
    exact not_lt.mpr (risk_to_cluster_le_two q)
  unfold higherGroup
  rw [List.filter_eq_nil_iff.mpr hall, List.map_nil]

lemma tierGroup_bucket_three (X : List (List ℚ)) (risks : List ℚ) :
    tierGroup X risks 3 = [] := by
  have hall : ∀ p ∈ X.zip (risks.map risk_to_cluster),
      ¬ (decide (p.2 = ((3 : ℕ) : ℚ)) = true) := by
    intro p hp
    obtain ⟨q, _, hq⟩ := List.mem_map.mp (List.of_mem_zip hp).2
    rw [decide_eq_true_eq, ← hq]
    intro heq
    have := risk_to_cluster_le_two q
    rw [heq] at this
    norm_num at this
  unfold tierGroup
  rw [List.filter_eq_nil_iff.mpr hall, List.map_nil]

lemma shifts_bucket_lt_two (e : ℚ) (n : ℕ) (X : List (List ℚ))
    (risks : List ℚ) (r : ShiftRow)
    (hr : r ∈ get_population_shifts e n X risks) : r.bucket < 2 := by
  rw [mem_shifts_iff] at hr
  obtain ⟨b, hb, h1, h2, rfl⟩ := hr
  show b < 2
  by_contra hb2
  push_neg at hb2
  interval_cases b
  · rw [higherGroup_bucket_two] at h2
    simp at h2
  · rw [tierGroup_bucket_three] at h1
    simp at h1

/-- C9: the population-shift table has at most 2 rows, and no row is ever
labeled "Risk lvl 2" or "Risk lvl 3": tiers 2 and 3 are always skipped
because their strictly-higher comparison group (resp. their own group) is
empty. -/
theorem shifts_row_bound (e : ℚ) (n : ℕ) (X : List (List ℚ))
    (risks : List ℚ) (i : ℕ) :
    (get_population_shifts e n X risks).length ≤ 2 ∧
      rowLabel ((get_population_shifts e n X risks).getD i
        ⟨0, []⟩).bucket ≠ "Risk lvl 2" ∧
      rowLabel ((get_population_shifts e n X risks).getD i
        ⟨0, []⟩).bucket ≠ "Risk lvl 3" := by
  have hf23 : ∀ b : ℕ, b = 2 ∨ b = 3 →
      (if (tierGroup X risks b).length < 2 ∨
          (higherGroup X risks b).length < 2
        then none
        else some (⟨b, (List.range n).map
          (shiftCell e (tierGroup X risks b)
            (higherGroup X risks b))⟩ : ShiftRow)) = none := by
    rintro b (rfl | rfl)
    · exact if_pos (Or.inr (by rw [higherGroup_bucket_two]; norm_num))
    · exact if_pos (Or.inl (by rw [tierGroup_bucket_three]; norm_num))
  have hlen : (get_population_shifts e n X risks).length ≤ 2 := by
    unfold get_population_shifts
    rw [show List.range 4 = [0, 1] ++ [2, 3] from rfl, List.filterMap_append]
    have hnil : List.filterMap (fun b =>
        if (tierGroup X risks b).length < 2 ∨
            (higherGroup X risks b).length < 2
          then none
          else some (⟨b, (List.range n).map
            (shiftCell e (tierGroup X risks b)
              (higherGroup X risks b))⟩ : ShiftRow)) [2, 3] = [] := by
      simp only [List.filterMap_cons, List.filterMap_nil,
        hf23 2 (Or.inl rfl), hf23 3 (Or.inr rfl)]
    rw [hnil, List.append_nil]
    exact List.length_filterMap_le _ _
  have hlabel : ((get_population_shifts e n X risks).getD i
      ⟨0, []⟩).bucket < 2 := by
    rw [List.getD_eq_getElem?_getD]
    cases h : (get_population_shifts e n X risks)[i]? with
    | none => simp
    | some r =>
        simpa using shifts_bucket_lt_two e n X risks r (List.getElem?_mem h)
  have hz : ((get_population_shifts e n X risks).getD i ⟨0, []⟩).bucket = 0 ∨
      ((get_population_shifts e n X risks).getD i ⟨0, []⟩).bucket = 1 := by
    omega
  refine ⟨hlen, ?_, ?_⟩ <;> (rcases hz with hz | hz <;> rw [hz] <;> decide)

/-- C4: a comparison row for tier `b` is emitted exactly when both the
samples of tier `b` and the samples of the strictly higher tiers number at
least 2; otherwise the tier is silently skipped. -/
theorem shift_row_emitted_iff (e : ℚ) (n : ℕ) (X : List (List ℚ))
    (risks : List ℚ) (b : ℕ) (hb : b < 4) :
    (∃ r ∈ get_population_shifts e n X risks, r.bucket = b) ↔
      (2 ≤ (tierGroup X risks b).length ∧
        2 ≤ (higherGroup X risks b).length) := by
  constructor
  · rintro ⟨r, hr, hbk⟩
    rw [mem_shifts_iff] at hr
    obtain ⟨b', hb', h1, h2, rfl⟩ := hr
    have hbb : b' = b := hbk
    subst hbb
    exact ⟨h1, h2⟩
  · rintro ⟨h1, h2⟩
    exact ⟨_, (mem_shifts_iff e n X risks _).mpr ⟨b, hb, h1, h2, rfl⟩, rfl⟩

/-- The effect size exactly as the spec words it: absolute difference of
the two group means divided by the pooled standard deviation
`sqrt(((n1−1)·var(d1) + (n2−1)·var(d2)) / (n1+n2−2))`, with `var` the
sample variance (`ddof=1`). Stated separately from `cohend` (which is
translated from `_cohend`) so the two can be compared. -/
noncomputable def cohendSpec (d1 d2 : List ℚ) : ℝ :=
  |(mean d1 : ℝ) - (mean d2 : ℝ)| /
    Real.sqrt ((((d1.length : ℝ) - 1) * (varS d1 : ℝ) +
        ((d2.length : ℝ) - 1) * (varS d2 : ℝ)) /
      ((d1.length : ℝ) + (d2.length : ℝ) - 2))

/-- C2: the explainer's effect size agrees with the spec's formula
`|mean(d1) − mean(d2)| / pooled_std` for every pair of groups. -/
theorem cohend_eq_spec (d1 d2 : List ℚ) : cohend d1 d2 = cohendSpec d1 d2 := by
  unfold cohend cohendSpec pooledStd
  rw [abs_div, abs_of_nonneg (Real.sqrt_nonneg _)]

lemma pooledStd_nonneg (d1 d2 : List ℚ) : 0 ≤ pooledStd d1 d2 :=
  Real.sqrt_nonneg _

/-- C7 counterexample: with both pairs of groups of size 2 and all sample
variances zero, the mean separation strictly increases from the first pair
to the second but the computed Cohen's d does not strictly increase (the
pooled standard deviation is zero, so the division degenerates). -/
theorem cohend_mono_counterexample :
    [(0 : ℚ), 0].length = [(0 : ℚ), 0].length ∧
      [(1 : ℚ), 1].length = [(2 : ℚ), 2].length ∧
      varS [(0 : ℚ), 0] = varS [(0 : ℚ), 0] ∧
      varS [(1 : ℚ), 1] = varS [(2 : ℚ), 2] ∧
      |mean [(0 : ℚ), 0] - mean [(1 : ℚ), 1]| <
        |mean [(0 : ℚ), 0] - mean [(2 : ℚ), 2]| ∧
      ¬ (cohend [(0 : ℚ), 0] [(1 : ℚ), 1] <
          cohend [(0 : ℚ), 0] [(2 : ℚ), 2]) := by
  have hps1 : pooledStd [(0 : ℚ), 0] [(1 : ℚ), 1] = 0 := by
    unfold pooledStd
    rw [show (((([(0 : ℚ), 0].length : ℝ)) - 1) * (varS [(0 : ℚ), 0] : ℝ) +
        (([(1 : ℚ), 1].length : ℝ) - 1) * (varS [(1 : ℚ), 1] : ℝ)) /
        (([(0 : ℚ), 0].length : ℝ) + ([(1 : ℚ), 1].length : ℝ) - 2) = 0 from by
      norm_num [varS, mean]]
    exact Real.sqrt_zero
  have hps2 : pooledStd [(0 : ℚ), 0] [(2 : ℚ), 2] = 0 := by
    unfold pooledStd
    rw [show (((([(0 : ℚ), 0].length : ℝ)) - 1) * (varS [(0 : ℚ), 0] : ℝ) +
        (([(2 : ℚ), 2].length : ℝ) - 1) * (varS [(2 : ℚ), 2] : ℝ)) /
        (([(0 : ℚ), 0].length : ℝ) + ([(2 : ℚ), 2].length : ℝ) - 2) = 0 from by
      norm_num [varS, mean]]
    exact Real.sqrt_zero
  refine ⟨rfl, rfl, rfl, by norm_num [varS, mean], by norm_num [mean], ?_⟩
  unfold cohend
  rw [hps1, hps2, div_zero, div_zero, abs_zero]
  exact lt_irrefl 0

/-- C7 amended: at equal group sizes and equal sample variances, and with a
strictly positive pooled standard deviation, a strictly larger absolute
mean separation yields a strictly larger Cohen's d. -/
theorem cohend_strict_mono (a1 a2 b1 b2 : List ℚ)
    (hl1 : a1.length = b1.length) (hl2 : a2.length = b2.length)
    (hv1 : varS a1 = varS b1) (hv2 : varS a2 = varS b2)
    (hs : 0 < pooledStd a1 a2)
    (hm : |(mean a1 : ℝ) - (mean a2 : ℝ)| <
      |(mean b1 : ℝ) - (mean b2 : ℝ)|) :
    cohend a1 a2 < cohend b1 b2 := by
  have hps : pooledStd a1 a2 = pooledStd b1 b2 := by
    unfold pooledStd
    rw [hl1, hl2, hv1, hv2]
  unfold cohend
  rw [abs_div, abs_div, abs_of_nonneg (pooledStd_nonneg a1 a2),
    abs_of_nonneg (pooledStd_nonneg b1 b2), ← hps]
  exact (div_lt_div_iff_of_pos_right hs).mpr hm

/-- The prediction interface of a wrapped estimator as the explainer
plugins consume it: `predict_proba(X)` returns one probability row per
sample (one entry per class) and `predict(X, eval_times)` returns one row
per sample with one entry per evaluation horizon. -/
structure WrappedModel where
  predictProba : List (List ℚ) → List (List ℚ)
  predictSurv : List (List ℚ) → List ℚ → List (List ℚ)

/-- The classification `model_fn` closure built in
`RiskEffectSizePlugin.__init__` (`plugin_risk_effect_size.py`,
lines 60-64): `model.predict_proba(X).values[:, 1]`, the column of the
class at index 1. -/
def classifierCbk (m : WrappedModel) (X : List (List ℚ)) : List ℚ :=
  (m.predictProba X).map (fun row => row.getD 1 0)

/-- The risk-estimation `model_fn` closure built in
`RiskEffectSizePlugin.__init__` (lines 72-82): `model.predict(X,
eval_times)` put in a table whose columns are labelled by `eval_times`, of
which the column labelled `eval_times[0]` is returned; the label lookup
resolves to the first position carrying that label. -/
def survivalCbk (m : WrappedModel) (evalTimes : List ℚ)
    (X : List (List ℚ)) : List ℚ :=
  (m.predictSurv X evalTimes).map
    (fun row => row.getD (evalTimes.indexOf evalTimes.headI) 0)

/-- C5: the per-sample risk score is the positive-class probability
(column 1 of `predict_proba`) for classification, and the prediction at
the first entry of `eval_times` (column 0 of the multi-horizon prediction
table) for risk estimation. -/
theorem risk_score_sources (m : WrappedModel) (evalTimes : List ℚ)
    (X : List (List ℚ)) (hne : evalTimes ≠ []) :
    classifierCbk m X = (m.predictProba X).map (fun row => row.getD 1 0) ∧
      survivalCbk m evalTimes X =
        (m.predictSurv X evalTimes).map (fun row => row.getD 0 0) := by
  refine ⟨rfl, ?_⟩
  obtain ⟨t, ts, rfl⟩ := List.exists_cons_of_ne_nil hne
  unfold survivalCbk
  rw [show (t :: ts).headI = t from rfl, List.indexOf_cons_self]

/-- The `model_fn` built by `model_fn_factory` in
`SymbolicPursuitPlugin.__init__` (`plugin_symbolic_pursuit.py`,
lines 118-124): `model.predict(X, [horizon])` — a single-horizon call —
squeezed to one numeric value per sample. -/
def symbolicSurvFn (m : WrappedModel) (horizon : ℚ)
    (X : List (List ℚ)) : List ℚ :=
  (m.predictSurv X [horizon]).map (fun row => row.headI)

/-- The horizon the surrogate is fitted at
(`plugin_symbolic_pursuit.py`, line 130): `eval_times[-1]`. -/
def symbolicFitHorizon (evalTimes : List ℚ) : ℚ := evalTimes.getLastD 0

/-- C6: for risk estimation the symbolic-pursuit surrogate is fitted
against an adapter that queries the model at exactly one horizon, which is
an element of `eval_times`, and yields one numeric value per input
sample. -/
theorem symbolic_adapter_single_horizon (m : WrappedModel)
    (evalTimes : List ℚ) (X : List (List ℚ)) (hne : evalTimes ≠ [])
    (hrows : ∀ X' ts, (m.predictSurv X' ts).length = X'.length) :
    symbolicFitHorizon evalTimes ∈ evalTimes ∧
      [symbolicFitHorizon evalTimes].length = 1 ∧
      (symbolicSurvFn m (symbolicFitHorizon evalTimes) X).length =
        X.length := by
  refine ⟨?_, rfl, ?_⟩
  · obtain ⟨t, ts, rfl⟩ := List.exists_cons_of_ne_nil hne
    exact List.mem_of_mem_getLast? rfl
  · unfold symbolicSurvFn
    rw [List.length_map, hrows]

/-- The side-effecting steps a plugin constructor can perform, in program
order: deep-copying the caller's estimator, fitting the copied model, and
fitting the symbolic surrogate. -/
inductive InitAction
  | deepcopy
  | fitModel
  | fitSurrogate
deriving DecidableEq

/-- `RiskEffectSizePlugin.__init__` (`plugin_risk_effect_size.py`,
lines 30-82) as the ordered list of steps performed before it returns or
raises: the task-type check precedes everything, `copy.deepcopy` precedes
the task branch, and in the risk-estimation branch the
`time_to_event`/`eval_times` check precedes `model.fit`. -/
def riskEffectSizeInit (taskType : String) (prefit : Bool)
    (timeToEvent : Option (List ℚ)) (evalTimes : Option (List ℚ)) :
    List InitAction × Except String Unit :=
  if ¬ (taskType = "classification" ∨ taskType = "risk_estimation") then
    ([], .error "invalid task type")
  else if taskType = "classification" then
    ([.deepcopy] ++ (if prefit then [] else [.fitModel]), .ok ())
  else if timeToEvent = none ∨ evalTimes = none then
    ([.deepcopy], .error "Invalid input for risk estimation interpretability")
  else
    ([.deepcopy] ++ (if prefit then [] else [.fitModel]), .ok ())

/-- `SymbolicPursuitPlugin.__init__` (`plugin_symbolic_pursuit.py`,
lines 47-130) as the ordered list of steps performed before it returns or
raises; every successful branch ends by fitting the surrogate
(`self.explainer.fit`). -/
def symbolicPursuitInit (taskType : String) (prefit : Bool)
    (timeToEvent : Option (List ℚ)) (evalTimes : Option (List ℚ)) :
    List InitAction × Except String Unit :=
  if ¬ (taskType = "classification" ∨ taskType = "risk_estimation" ∨
      taskType = "regression") then
    ([], .error "invalid task type")
  else if taskType = "classification" ∨ taskType = "regression" then
    ([.deepcopy] ++ (if prefit then [] else [.fitModel]) ++ [.fitSurrogate],
      .ok ())
  else if timeToEvent = none ∨ evalTimes = none then
    ([.deepcopy], .error "Invalid input for risk estimation interpretability")
  else
    ([.deepcopy] ++ (if prefit then [] else [.fitModel]) ++ [.fitSurrogate],
      .ok ())

/-- Selector for the two explainer plugins under study. -/
inductive PluginKind
  | riskEffectSize
  | symbolicPursuit
deriving DecidableEq

/-- The supported task types of each plugin
(`plugin_risk_effect_size.py` line 44, `plugin_symbolic_pursuit.py`
line 68). -/
def pluginSupported : PluginKind → List String
  | .riskEffectSize => ["classification", "risk_estimation"]
  | .symbolicPursuit => ["classification", "risk_estimation", "regression"]

/-- The constructor of the selected plugin. -/
def pluginInit : PluginKind → String → Bool → Option (List ℚ) →
    Option (List ℚ) → List InitAction × Except String Unit
  | .riskEffectSize => riskEffectSizeInit
  | .symbolicPursuit => symbolicPursuitInit

/-- C8: constructing either explainer plugin with a task type outside that
plugin's supported set, or with task type risk_estimation while
`time_to_event` or `eval_times` is `None`, raises an error, and neither
the model fit nor the surrogate fit has been performed at that point. -/
theorem explainer_init_fail_fast (k : PluginKind) (taskType : String)
    (prefit : Bool) (tte evalTimes : Option (List ℚ))
    (hbad : taskType ∉ pluginSupported k ∨
      (taskType = "risk_estimation" ∧ (tte = none ∨ evalTimes = none))) :
    (pluginInit k taskType prefit tte evalTimes).2 ≠ .ok () ∧
      InitAction.fitModel ∉ (pluginInit k taskType prefit tte evalTimes).1 ∧
      InitAction.fitSurrogate ∉
        (pluginInit k taskType prefit tte evalTimes).1 := by
  cases k with
  | riskEffectSize =>
      simp only [pluginInit]
      rcases hbad with hnot | ⟨hre, hnone⟩
      · have hcond : ¬ (taskType = "classification" ∨
            taskType = "risk_estimation") := by
          simpa [pluginSupported] using hnot
        unfold riskEffectSizeInit
        rw [if_pos hcond]
        exact ⟨by simp, by simp, by simp⟩
      · subst hre
        unfold riskEffectSizeInit
        rw [if_neg (not_not_intro (Or.inr rfl)), if_neg (by decide),
          if_pos hnone]
        exact ⟨by simp, by simp, by simp⟩
  | symbolicPursuit =>
      simp only [pluginInit]
      rcases hbad with hnot | ⟨hre, hnone⟩
      · have hcond : ¬ (taskType = "classification" ∨
            taskType = "risk_estimation" ∨ taskType = "regression") := by
          simpa [pluginSupported] using hnot
        unfold symbolicPursuitInit
        rw [if_pos hcond]
        exact ⟨by simp, by simp, by simp⟩
      · subst hre
        unfold symbolicPursuitInit
        rw [if_neg (not_not_intro (Or.inr (Or.inl rfl))), if_neg (by decide),
          if_pos hnone]
        exact ⟨by simp, by simp, by simp⟩

/-- The mutable state of an estimator object: the data it was last fitted
on, if any (features, optional time-to-event column, labels). -/
structure EstimatorState where
  fittedOn : Option (List (List ℚ) × Option (List ℚ) × List ℚ)

/-- `model.fit(...)` overwrites the estimator object's fitted state with
the given training data. -/
def fitEst (X : List (List ℚ)) (tte : Option (List ℚ)) (y : List ℚ) :
    EstimatorState :=
  { fittedOn := some (X, tte, y) }

/-- Both plugin constructors (`plugin_risk_effect_size.py` line 52,
`plugin_symbolic_pursuit.py` line 76) acting on a heap of estimator
objects: `copy.deepcopy(estimator)` allocates a fresh object holding the
same state at the end of the heap, and when `prefit` is false `fit` is
called on the fresh object only — with `(X, y)` in the
classification/regression branches and `(X, time_to_event, y)` in the
risk-estimation branch. `explain` later reads predictions from the fresh
object and never writes the heap. The returned index is the reference the
plugin keeps. -/
def pluginInitHeap (heap : List EstimatorState) (est : ℕ)
    (taskType : String) (prefit : Bool) (X : List (List ℚ))
    (tte : Option (List ℚ)) (y : List ℚ) : List EstimatorState × ℕ :=
  let copied := heap.getD est ⟨none⟩
  let heap2 := heap ++ [copied]
  let model := heap.length
  let heap3 :=
    if prefit then heap2
    else if taskType = "risk_estimation" then
      heap2.set model (fitEst X tte y)
    else heap2.set model (fitEst X none y)
  (heap3, model)

/-- C10: constructing an explainer plugin never mutates the caller's
estimator object, for every task type and either value of `prefit`: the
heap slot of the caller's estimator is unchanged, and the object the
plugin keeps (and later predicts from) is a different one. -/
theorem estimator_not_mutated (heap : List EstimatorState) (est : ℕ)
    (taskType : String) (prefit : Bool) (X : List (List ℚ))
    (tte : Option (List ℚ)) (y : List ℚ) (hest : est < heap.length) :
    (pluginInitHeap heap est taskType prefit X tte y).1.getD est ⟨none⟩ =
      heap.getD est ⟨none⟩ ∧
    (pluginInitHeap heap est taskType prefit X tte y).2 ≠ est := by
  have happ : (heap ++ [heap.getD est ⟨none⟩]).getD est ⟨none⟩ =
      heap.getD est ⟨none⟩ := by
    rw [List.getD_eq_getElem?_getD, List.getD_eq_getElem?_getD,
      List.getElem?_append, if_pos hest]
  have hne : heap.length ≠ est := (Nat.ne_of_lt hest).symm
  have hset : ∀ s : EstimatorState,
      ((heap ++ [heap.getD est ⟨none⟩]).set heap.length s).getD est ⟨none⟩ =
        heap.getD est ⟨none⟩ := by
    intro s
    rw [List.getD_eq_getElem?_getD, List.getElem?_set_ne hne,
      ← List.getD_eq_getElem?_getD, happ]
  unfold pluginInitHeap
  refine ⟨?_, hne⟩
  split_ifs with hp ht
  · exact happ
  · exact hset _
  · exact hset _

/-- Concrete feature table used by witnesses: six samples, one feature. -/
def Xex : List (List ℚ) := [[0], [1], [2], [10], [11], [12]]

/-- Concrete risk scores used by witnesses: three samples in tier 0 and
three in tier 2. -/
def risksEx : List ℚ := [1/10, 1/10, 1/10, 3/5, 3/5, 3/5]

lemma tierGroup_ex : tierGroup Xex risksEx 0 = [[0], [1], [2]] := by
  norm_num [tierGroup, Xex, risksEx, risk_to_cluster, List.filter]

lemma higherGroup_ex : higherGroup Xex risksEx 0 = [[10], [11], [12]] := by
  norm_num [higherGroup, Xex, risksEx, risk_to_cluster, List.filter]

/-- The row the population-shift table contains for the witness inputs. -/
noncomputable def rowEx : ShiftRow :=
  ⟨0, (List.range 1).map
    (shiftCell (1/2) (tierGroup Xex risksEx 0) (higherGroup Xex risksEx 0))⟩

lemma rowEx_mem : rowEx ∈ get_population_shifts (1/2) 1 Xex risksEx :=
  (mem_shifts_iff (1/2) 1 Xex risksEx rowEx).mpr
    ⟨0, by norm_num, by rw [tierGroup_ex]; norm_num,
      by rw [higherGroup_ex]; norm_num, rfl⟩

/-- Witness for C1 at the concrete inputs `Xex`, `risksEx`. -/
theorem shift_cells_thresholded_witness :
    rowEx ∈ get_population_shifts (1/2) 1 Xex risksEx ∧ 0 < 1 ∧
      (rowEx.cells.getD 0 0 =
        (if cohend (column (tierGroup Xex risksEx rowEx.bucket) 0)
            (column (higherGroup Xex risksEx rowEx.bucket) 0) <
            ((1/2 : ℚ) : ℝ) then 0
          else cohend (column (tierGroup Xex risksEx rowEx.bucket) 0)
            (column (higherGroup Xex risksEx rowEx.bucket) 0)) ∧
        0 ≤ rowEx.cells.getD 0 0) :=
  ⟨rowEx_mem, by norm_num,
    shift_cells_thresholded (1/2) 1 Xex risksEx rowEx 0 rowEx_mem
      (by norm_num)⟩

/-- Witness for C4 at tier 0 of the concrete inputs `Xex`, `risksEx`. -/
theorem shift_row_emitted_iff_witness :
    0 < 4 ∧
      ((∃ r ∈ get_population_shifts (1/2) 1 Xex risksEx, r.bucket = 0) ↔
        (2 ≤ (tierGroup Xex risksEx 0).length ∧
          2 ≤ (higherGroup Xex risksEx 0).length)) :=
  ⟨by norm_num,
    shift_row_emitted_iff (1/2) 1 Xex risksEx 0 (by norm_num)⟩

/-- Witness for C7's amended claim: first pair `[0,2]` vs `[0,2]` (mean
separation 0), second pair `[10,12]` vs `[0,2]` (mean separation 10), all
sample variances 2, pooled standard deviation `sqrt 2 > 0`. -/
theorem cohend_strict_mono_witness :
    [(0 : ℚ), 2].length = [(10 : ℚ), 12].length ∧
      [(0 : ℚ), 2].length = [(0 : ℚ), 2].length ∧
      varS [(0 : ℚ), 2] = varS [(10 : ℚ), 12] ∧
      varS [(0 : ℚ), 2] = varS [(0 : ℚ), 2] ∧
      0 < pooledStd [(0 : ℚ), 2] [(0 : ℚ), 2] ∧
      |(mean [(0 : ℚ), 2] : ℝ) - (mean [(0 : ℚ), 2] : ℝ)| <
        |(mean [(10 : ℚ), 12] : ℝ) - (mean [(0 : ℚ), 2] : ℝ)| ∧
      cohend [(0 : ℚ), 2] [(0 : ℚ), 2] < cohend [(10 : ℚ), 12] [(0 : ℚ), 2] := by
  have hvar : varS [(0 : ℚ), 2] = 2 := by norm_num [varS, mean]
  have hs : 0 < pooledStd [(0 : ℚ), 2] [(0 : ℚ), 2] := by
    unfold pooledStd
    rw [hvar]
    apply Real.sqrt_pos.mpr
    norm_num
  have hv1 : varS [(0 : ℚ), 2] = varS [(10 : ℚ), 12] := by
    norm_num [varS, mean]
  have hm : |(mean [(0 : ℚ), 2] : ℝ) - (mean [(0 : ℚ), 2] : ℝ)| <
      |(mean [(10 : ℚ), 12] : ℝ) - (mean [(0 : ℚ), 2] : ℝ)| := by
    norm_num [mean]
  exact ⟨rfl, rfl, hv1, rfl, hs, hm,
    cohend_strict_mono [(0 : ℚ), 2] [(0 : ℚ), 2] [(10 : ℚ), 12]
      [(0 : ℚ), 2] rfl rfl hv1 rfl hs hm⟩

/-- Concrete estimator used by witnesses: two class probabilities per
sample; survival predictions echo the requested horizons per sample. -/
def wmEx : WrappedModel :=
  { predictProba := fun X => X.map (fun _ => [1/4, 3/4])
    predictSurv := fun X ts => X.map (fun _ => ts) }

/-- Witness for C5 at the concrete estimator `wmEx` and horizons `[1, 2]`. -/
theorem risk_score_sources_witness :
    ([(1 : ℚ), 2] : List ℚ) ≠ [] ∧
      (classifierCbk wmEx [[0]] =
          (wmEx.predictProba [[0]]).map (fun row => row.getD 1 0) ∧
        survivalCbk wmEx [1, 2] [[0]] =
          (wmEx.predictSurv [[0]] [1, 2]).map (fun row => row.getD 0 0)) :=
  ⟨by simp, risk_score_sources wmEx [1, 2] [[0]] (by simp)⟩

/-- Witness for C6 at the concrete estimator `wmEx` and horizons `[1, 2]`. -/
theorem symbolic_adapter_single_horizon_witness :
    ([(1 : ℚ), 2] : List ℚ) ≠ [] ∧
      (∀ X' ts, (wmEx.predictSurv X' ts).length = X'.length) ∧
      (symbolicFitHorizon [1, 2] ∈ ([(1 : ℚ), 2] : List ℚ) ∧
        [symbolicFitHorizon [1, 2]].length = 1 ∧
        (symbolicSurvFn wmEx (symbolicFitHorizon [1, 2]) [[0]]).length =
          ([[(0 : ℚ)]] : List (List ℚ)).length) :=
  ⟨by simp, fun X' ts => by simp [wmEx],
    symbolic_adapter_single_horizon wmEx [1, 2] [[0]] (by simp)
      (fun X' ts => by simp [wmEx])⟩

/-- Witness for C8: task type "regression" is outside
`RiskEffectSizePlugin`'s supported set (though supported by the symbolic
pursuit plugin), and its constructor fails before any fit. -/
theorem explainer_init_fail_fast_witness :
    ("regression" ∉ pluginSupported PluginKind.riskEffectSize ∨
      ("regression" = "risk_estimation" ∧
        ((none : Option (List ℚ)) = none ∨
          (none : Option (List ℚ)) = none))) ∧
    ((pluginInit PluginKind.riskEffectSize "regression" false none
        none).2 ≠ .ok () ∧
      InitAction.fitModel ∉
        (pluginInit PluginKind.riskEffectSize "regression" false none
          none).1 ∧
      InitAction.fitSurrogate ∉
        (pluginInit PluginKind.riskEffectSize "regression" false none
          none).1) :=
  ⟨Or.inl (by decide),
    explainer_init_fail_fast PluginKind.riskEffectSize "regression" false
      none none (Or.inl (by decide))⟩

/-- Witness for C10 at a one-object heap. -/
theorem estimator_not_mutated_witness :
    0 < ([⟨none⟩] : List EstimatorState).length ∧
      ((pluginInitHeap [⟨none⟩] 0 "classification" false [[1]] none
          [0]).1.getD 0 ⟨none⟩ =
        ([⟨none⟩] : List EstimatorState).getD 0 ⟨none⟩ ∧
      (pluginInitHeap [⟨none⟩] 0 "classification" false [[1]] none
          [0]).2 ≠ 0) :=
  ⟨by simp,
    estimator_not_mutated [⟨none⟩] 0 "classification" false [[1]] none [0]
      (by simp)⟩
